import Mathlib

/-!
gosql: the customers service and its HTTP adapters.

A shallow embedding of

* `pkg/customers/service.go`  (the data-access service),
* `cmd/server/app/server.go`  (HTTP adapter, namespace `ServerApp`),
* `cmd/app/server.go`         (HTTP adapter, namespace `App`),

together with a model of the collaborators the code talks to
(`database/sql`, the `customers` table, `strconv.ParseInt`, `net/http`).

Conventions.
* A Go `error` is `Option Error` (`none` is `nil`).
* A Go `(*Customer, error)` result is `Option Customer × Option Error`.
* The store is explicit state: every service operation returns the service
  value it leaves behind, whose `db.trace` lists the executed statements.
* A `context.Context` is what `database/sql` finds when it asks for a
  connection: `Err` is `ctx.Err()`, nil while the context is not done.
* `log.Print` has no effect on results or on the store and is left out.
-/

set_option autoImplicit false

namespace customers

/-! ## Errors -/

/-- Go error values that can reach the service: the two sentinels of the
package, `sql.ErrNoRows`, `driver.ErrBadConn`, the two context errors
`context.Canceled` and `context.DeadlineExceeded`, any other driver error,
and a `%w` wrapper. -/
inductive Error where
  | ErrNotFound
  | ErrInternal
  | ErrNoRows
  | ErrBadConn
  | Canceled
  | DeadlineExceeded
  | driver (msg : String)
  | wrapped (msg : String) (cause : Error)
  deriving DecidableEq, Repr

open Error

/-- Walk of the `Unwrap` chain done by `errors.Is` for a non-nil error. -/
def isInChain : Error → Error → Bool
  | wrapped m c, target => decide (wrapped m c = target) || isInChain c target
  | e, target => decide (e = target)

/-- Go `errors.Is(err, target)` for a non-nil `target`. -/
def errorsIs : Option Error → Error → Bool
  | none, _ => false
  | some e, target => isInChain e target

/-! ## Contexts -/

/-- Go `context.Context`, as the calls made under it find it: `Err` is
`ctx.Err()`, nil as long as the context is neither cancelled nor past its
deadline. -/
structure Context where
  Err : Option Error
  deriving DecidableEq, Repr

/-- Go `context.Background()`: the context that is never done. -/
def Background : Context :=
  { Err := none }

/-! ## Data model -/

/-- Go `time.Time`, as an instant. -/
abbrev Time := Int

/-- Go `Customer` struct. -/
structure Customer where
  ID : Int
  Name : String
  Phone : String
  Active : Bool
  Created : Time
  deriving DecidableEq, Repr

/-- Go `&Customer{}`: the zero value. -/
def Customer.zero : Customer :=
  { ID := 0, Name := "", Phone := "", Active := false, Created := 0 }

/-! ## The store client (`database/sql`) -/

/-- The seven SQL statements the service issues, with their arguments. -/
inductive Stmt where
  | selectByID (id : Int)
  | selectAll
  | selectAllActive
  | insertOnConflictDoNothing (name phone : String)
  | updateNamePhone (name phone : String) (id : Int)
  | deleteByID (id : Int)
  | setActive (active : Bool) (id : Int)
  deriving DecidableEq, Repr

/-- What the store answers to one statement: the query fails, or it yields a
result set; each row of the set either scans into a `Customer` or makes
`Scan` fail. -/
inductive Reply where
  | fail (e : Error)
  | rows (rs : List (Except Error Customer))

/-- Whether the reply is an error that is (or wraps) `driver.ErrBadConn`. -/
def Reply.isBadConn : Reply → Bool
  | Reply.fail e => errorsIs (some e) ErrBadConn
  | Reply.rows _ => false

/-- Go `*sql.DB` handle over a store state: `connect` tells whether a
connection can be had in that state (nil) or why not (handle closed, store
unreachable); `exec` is what the store answers to a statement sent over a
connection; `trace` lists the statements sent so far. -/
structure DB (σ : Type) where
  connect : σ → Option Error
  exec : Stmt → σ → Reply × σ
  state : σ
  trace : List Stmt

/-- One attempt of `database/sql` to run a statement (`db.query`): `db.conn`
gives up with `ctx.Err()` when the context is done and with the connection
error when no connection can be had, in both cases before anything is sent;
otherwise the statement is sent, which is the single place where the trace
grows. -/
def DB.attempt {σ : Type} (db : DB σ) (ctx : Context) (q : Stmt) : Reply × DB σ :=
  match ctx.Err with
  | some e => (Reply.fail e, db)
  | none =>
    match db.connect db.state with
    | some e => (Reply.fail e, db)
    | none =>
      let r := db.exec q db.state
      (r.1, { db with state := r.2, trace := db.trace ++ [q] })

/-- Go `maxBadConnRetries` of `database/sql`. -/
def maxBadConnRetries : Nat := 2

/-- Go `db.retry`: up to `n` attempts, each repeated when it ends in
`driver.ErrBadConn`, then one last attempt whose outcome is final. -/
def DB.retry {σ : Type} (ctx : Context) (q : Stmt) : Nat → DB σ → Reply × DB σ
  | 0, db => db.attempt ctx q
  | n + 1, db =>
    let r := db.attempt ctx q
    if r.1.isBadConn then DB.retry ctx q n r.2 else r

/-- What `db.QueryContext(ctx, q, args...)` does with the store:
`maxBadConnRetries` retried attempts and a last one. -/
def DB.run {σ : Type} (db : DB σ) (ctx : Context) (q : Stmt) : Reply × DB σ :=
  DB.retry ctx q maxBadConnRetries db

/-- Go `(*sql.Row).Scan` applied to the outcome of `QueryRowContext`:
a query error is returned as is, an empty result set gives `sql.ErrNoRows`,
otherwise the first row is scanned into `item`. -/
def Reply.Scan (r : Reply) (item : Customer) : Customer × Option Error :=
  match r with
  | Reply.fail e => (item, some e)
  | Reply.rows [] => (item, some ErrNoRows)
  | Reply.rows (Except.error e :: _) => (item, some e)
  | Reply.rows (Except.ok c :: _) => (c, none)

/-- Go `db.QueryRowContext(ctx, q, args...).Scan(&item.ID, ...)`. -/
def DB.QueryRowScan {σ : Type} (db : DB σ) (ctx : Context) (q : Stmt) (item : Customer) :
    (Customer × Option Error) × DB σ :=
  let r := db.run ctx q
  (r.1.Scan item, r.2)

/-- Go `db.QueryContext(ctx, q)`: the rows (empty on error) and the error. -/
def DB.QueryContext {σ : Type} (db : DB σ) (ctx : Context) (q : Stmt) :
    (List (Except Error Customer) × Option Error) × DB σ :=
  let r := db.run ctx q
  match r.1 with
  | Reply.fail e => (([], some e), r.2)
  | Reply.rows rs => ((rs, none), r.2)

/-! ## `pkg/customers/service.go` -/

/-- Go `Service` struct. -/
structure Service (σ : Type) where
  db : DB σ

/-- Go `Service.ByID`. -/
def Service.ByID {σ : Type} (s : Service σ) (ctx : Context) (id : Int) :
    (Option Customer × Option Error) × Service σ :=
  let item := Customer.zero
  let r := s.db.QueryRowScan ctx (Stmt.selectByID id) item
  let item := r.1.1
  let err := r.1.2
  if err = some ErrNoRows then ((none, some ErrNotFound), ⟨r.2⟩)
  else if err ≠ none then ((none, some ErrInternal), ⟨r.2⟩)
  else ((some item, none), ⟨r.2⟩)

/-- The `for rows.Next()` loop of `All` and `AllActive`: a row that fails to
scan ends the loop with `return nil, err`; otherwise the item is appended. -/
def scanLoop : List (Except Error Customer) → List Customer →
    Option (List Customer) × Option Error
  | [], items => (some items, none)
  | Except.error err :: _, _ => (none, some err)
  | Except.ok item :: rest, items => scanLoop rest (items ++ [item])

/-- Go `Service.All`. -/
def Service.All {σ : Type} (s : Service σ) (ctx : Context) :
    (Option (List Customer) × Option Error) × Service σ :=
  let items : List Customer := []
  let r := s.db.QueryContext ctx Stmt.selectAll
  let rows := r.1.1
  let err := r.1.2
  if errorsIs err ErrNoRows then ((none, none), ⟨r.2⟩)
  else if err ≠ none then ((none, some ErrInternal), ⟨r.2⟩)
  else (scanLoop rows items, ⟨r.2⟩)

/-- Go `Service.AllActive`. -/
def Service.AllActive {σ : Type} (s : Service σ) (ctx : Context) :
    (Option (List Customer) × Option Error) × Service σ :=
  let items : List Customer := []
  let r := s.db.QueryContext ctx Stmt.selectAllActive
  let rows := r.1.1
  let err := r.1.2
  if errorsIs err ErrNoRows then ((none, none), ⟨r.2⟩)
  else if err ≠ none then ((none, some ErrInternal), ⟨r.2⟩)
  else (scanLoop rows items, ⟨r.2⟩)

/-- Go `Service.Save`. -/
def Service.Save {σ : Type} (s : Service σ) (ctx : Context) (id : Int) (name phone : String) :
    (Option Customer × Option Error) × Service σ :=
  let item := Customer.zero
  if id = 0 then
    let r := s.db.QueryRowScan ctx (Stmt.insertOnConflictDoNothing name phone) item
    let item := r.1.1
    let err := r.1.2
    if err ≠ none then ((none, some ErrInternal), ⟨r.2⟩)
    else ((some item, none), ⟨r.2⟩)
  else
    let b := s.ByID ctx id
    let err := b.1.2
    if err ≠ none then ((none, err), b.2)
    else
      let r := b.2.db.QueryRowScan ctx (Stmt.updateNamePhone name phone id) item
      let item := r.1.1
      let err := r.1.2
      if err ≠ none then ((none, some ErrInternal), ⟨r.2⟩)
      else ((some item, none), ⟨r.2⟩)

/-- Go `Service.RemoveByID`. -/
def Service.RemoveByID {σ : Type} (s : Service σ) (ctx : Context) (id : Int) :
    (Option Customer × Option Error) × Service σ :=
  let item := Customer.zero
  let r := s.db.QueryRowScan ctx (Stmt.deleteByID id) item
  let item := r.1.1
  let err := r.1.2
  if err = some ErrNoRows then ((none, some ErrNotFound), ⟨r.2⟩)
  else if err ≠ none then ((none, some ErrInternal), ⟨r.2⟩)
  else ((some item, none), ⟨r.2⟩)

/-- Go `Service.BlockByID`. -/
def Service.BlockByID {σ : Type} (s : Service σ) (ctx : Context) (id : Int) :
    (Option Customer × Option Error) × Service σ :=
  let item := Customer.zero
  let r := s.db.QueryRowScan ctx (Stmt.setActive false id) item
  let item := r.1.1
  let err := r.1.2
  if err = some ErrNoRows then ((none, some ErrNotFound), ⟨r.2⟩)
  else if err ≠ none then ((none, some ErrInternal), ⟨r.2⟩)
  else ((some item, none), ⟨r.2⟩)

/-- Go `Service.UnBlockByID`. -/
def Service.UnBlockByID {σ : Type} (s : Service σ) (ctx : Context) (id : Int) :
    (Option Customer × Option Error) × Service σ :=
  let item := Customer.zero
  let r := s.db.QueryRowScan ctx (Stmt.setActive true id) item
  let item := r.1.1
  let err := r.1.2
  if err = some ErrNoRows then ((none, some ErrNotFound), ⟨r.2⟩)
  else if err ≠ none then ((none, some ErrInternal), ⟨r.2⟩)
  else ((some item, none), ⟨r.2⟩)

/-! ## The `customers` table -/

/-- State of the `customers` table: its rows and the next value of the id
sequence. -/
structure Table where
  rows : List Customer
  nextID : Int
  deriving DecidableEq, Repr

/-- The table is keyed by id: no two rows share an id. -/
def Table.Keyed (t : Table) : Prop :=
  (t.rows.map (fun r => r.ID)).Nodup

/-- The table is keyed by id, as a decidable property. -/
instance (t : Table) : Decidable t.Keyed := by
  unfold Table.Keyed; infer_instance

/-- The row an `UPDATE ... SET name, phone` leaves behind. -/
def Customer.withNamePhone (r : Customer) (name phone : String) : Customer :=
  { r with Name := name, Phone := phone }

/-- The row an `UPDATE ... SET active` leaves behind. -/
def Customer.withActive (r : Customer) (active : Bool) : Customer :=
  { r with Active := active }

/-- Modelled from the spec: the persisted schema, which is not part of the
sources (a `customers` table with columns id, name, phone, active, created, a
unique constraint on phone, id assigned by the store, created set at
creation).  Each statement of the service is given its single-statement SQL
meaning on that table, executed at instant `now`:
an insert whose phone is taken does nothing and returns no row; an update
that would give two rows the same phone is rejected by the constraint;
`RETURNING` yields the rows written (for a delete, the rows removed). -/
def Table.exec (now : Time) : Stmt → Table → Reply × Table
  | Stmt.selectByID id, t =>
    (Reply.rows ((t.rows.filter (fun r => r.ID = id)).map Except.ok), t)
  | Stmt.selectAll, t =>
    (Reply.rows (t.rows.map Except.ok), t)
  | Stmt.selectAllActive, t =>
    (Reply.rows ((t.rows.filter (fun r => r.Active = true)).map Except.ok), t)
  | Stmt.insertOnConflictDoNothing name phone, t =>
    if t.rows.any (fun r => r.Phone = phone) then (Reply.rows [], t)
    else
      let c : Customer :=
        { ID := t.nextID, Name := name, Phone := phone, Active := true, Created := now }
      (Reply.rows [Except.ok c], { rows := t.rows ++ [c], nextID := t.nextID + 1 })
  | Stmt.updateNamePhone name phone id, t =>
    if t.rows.any (fun r => r.ID = id) ∧
        t.rows.any (fun r => r.ID ≠ id ∧ r.Phone = phone) then
      (Reply.fail (driver "duplicate key value violates unique constraint"), t)
    else
      let rows := t.rows.map (fun r => if r.ID = id then r.withNamePhone name phone else r)
      (Reply.rows ((rows.filter (fun r => r.ID = id)).map Except.ok), { t with rows := rows })
  | Stmt.deleteByID id, t =>
    (Reply.rows ((t.rows.filter (fun r => r.ID = id)).map Except.ok),
      { t with rows := t.rows.filter (fun r => r.ID ≠ id) })
  | Stmt.setActive active id, t =>
    let rows := t.rows.map (fun r => if r.ID = id then r.withActive active else r)
    (Reply.rows ((rows.filter (fun r => r.ID = id)).map Except.ok), { t with rows := rows })

/-- The table after `UPDATE customers SET active = b WHERE id = id`. -/
def Table.afterSetActive (t : Table) (b : Bool) (id : Int) : Table :=
  { rows := t.rows.map (fun r => if r.ID = id then r.withActive b else r),
    nextID := t.nextID }

/-- A service whose store is the table `t`, reachable over a sound connection,
with the statements in `trace` already sent. -/
def Table.service (now : Time) (t : Table) (trace : List Stmt) : Service Table :=
  ⟨{ connect := fun _ => none, exec := Table.exec now, state := t, trace := trace }⟩

/-- A reachable store that answers every statement with the given reply and
has no state. -/
def constDB (r : Reply) : DB Unit :=
  { connect := fun _ => none, exec := fun _ u => (r, u), state := (), trace := [] }

/-- A two-row table used as a concrete store. -/
def sampleTable : Table :=
  { rows := [ { ID := 1, Name := "Alice", Phone := "+1000", Active := true, Created := 10 },
              { ID := 2, Name := "Bob", Phone := "+2000", Active := false, Created := 20 } ],
    nextID := 3 }

/-! ## `strconv.ParseInt(s, 10, 64)` -/

/-- The two ways `strconv.ParseInt` fails: `notANumber` is Go's syntax error,
`outOfRange` is Go's `ErrRange`. -/
inductive NumError where
  | notANumber
  | outOfRange
  deriving DecidableEq, Repr

/-- Largest `uint64`. -/
def maxUint64 : Nat := 2 ^ 64 - 1

/-- The digit loop of `strconv.ParseUint` in base 10 with bit size 64: a byte
that is not a decimal digit is a syntax error; an accumulator at or above
`maxUint64/10 + 1`, or a sum that leaves the 64-bit range, is a range error
with value `maxUint64`. -/
def parseUintLoop : List Char → Nat → Nat × Option NumError
  | [], n => (n, none)
  | c :: cs, n =>
    if 48 ≤ c.toNat ∧ c.toNat ≤ 57 then
      if n ≥ maxUint64 / 10 + 1 then (maxUint64, some NumError.outOfRange)
      else
        let n1 := n * 10 + (c.toNat - 48)
        if n1 > maxUint64 then (maxUint64, some NumError.outOfRange)
        else parseUintLoop cs n1
    else (0, some NumError.notANumber)

/-- Go `strconv.ParseUint(s, 10, 64)`. -/
def ParseUint (s : List Char) : Nat × Option NumError :=
  if s = [] then (0, some NumError.notANumber) else parseUintLoop s 0

/-- Go `strconv.ParseInt(s, 10, 64)`: the value and the error. -/
def ParseInt (s : String) : Int × Option NumError :=
  match s.toList with
  | [] => (0, some NumError.notANumber)
  | c :: cs =>
    let neg : Bool := c = '-'
    let rest := if c = '+' ∨ c = '-' then cs else c :: cs
    let r := ParseUint rest
    if r.2 = some NumError.notANumber then (0, some NumError.notANumber)
    else
      let cutoff : Nat := 2 ^ 63
      if neg = false ∧ r.1 ≥ cutoff then ((cutoff : Int) - 1, some NumError.outOfRange)
      else if neg = true ∧ r.1 > cutoff then (-(cutoff : Int), some NumError.outOfRange)
      else (if neg then -(r.1 : Int) else (r.1 : Int), none)

/-! ## `net/http` -/

/-- What a handler has made of the response so far: the headers set, the
status written (`none` until the first `WriteHeader` or `Write`), the body. -/
structure ResponseWriter where
  header : List (String × String)
  status : Option Nat
  body : String
  deriving DecidableEq, Repr

/-- The writer a handler is given: nothing set, nothing written. -/
def ResponseWriter.fresh : ResponseWriter :=
  { header := [], status := none, body := "" }

/-- Go `w.Header().Set(key, value)`; headers set after the status line went
out are not sent. -/
def ResponseWriter.HeaderSet (w : ResponseWriter) (key value : String) : ResponseWriter :=
  match w.status with
  | none => { w with header := (key, value) :: w.header.filter (fun p => p.1 ≠ key) }
  | some _ => w

/-- Go `w.WriteHeader(code)`: only the first call counts. -/
def ResponseWriter.WriteHeader (w : ResponseWriter) (code : Nat) : ResponseWriter :=
  match w.status with
  | none => { w with status := some code }
  | some _ => w

/-- Go `http.StatusOK`. -/
def StatusOK : Nat := 200
/-- Go `http.StatusBadRequest`. -/
def StatusBadRequest : Nat := 400
/-- Go `http.StatusNotFound`. -/
def StatusNotFound : Nat := 404
/-- Go `http.StatusInternalServerError`. -/
def StatusInternalServerError : Nat := 500

/-- Go `w.Write(data)`: writes the status 200 first if none was written. -/
def ResponseWriter.Write (w : ResponseWriter) (data : String) : ResponseWriter :=
  let w1 := w.WriteHeader StatusOK
  { w1 with body := w1.body ++ data }

/-- The status the client receives once the handler has returned: 200 when the
handler wrote none. -/
def ResponseWriter.statusCode (w : ResponseWriter) : Nat :=
  w.status.getD StatusOK

/-- Go `http.StatusText`, for the codes the handlers use. -/
def StatusText (code : Nat) : String :=
  if code = 200 then "OK"
  else if code = 400 then "Bad Request"
  else if code = 404 then "Not Found"
  else if code = 500 then "Internal Server Error"
  else ""

/-- Go `http.Error(w, error, code)`: plain-text headers, the status, then the
text followed by a newline. -/
def httpError (w : ResponseWriter) (error : String) (code : Nat) : ResponseWriter :=
  (((w.HeaderSet "Content-Type" "text/plain; charset=utf-8").HeaderSet
      "X-Content-Type-Options" "nosniff").WriteHeader code).Write (error ++ "\n")

/-- Go `url.Values.Get`: the first value of the key, or the empty string. -/
def ValuesGet (vs : List (String × String)) (key : String) : String :=
  match vs.find? (fun p => p.1 = key) with
  | some p => p.2
  | none => ""

/-- The parts of a Go `*http.Request` the handlers read: the parsed query
string, the parsed form body, and the request context (`r.Context()`). -/
structure Request where
  query : List (String × String)
  postForm : List (String × String)
  ctx : Context

/-- Go `r.FormValue(key)`: body parameters take precedence over the query. -/
def Request.FormValue (r : Request) (key : String) : String :=
  ValuesGet (r.postForm ++ r.query) key

/-- Go `json.Marshal` on the two kinds of value the handlers encode, taken as
a parameter. -/
structure Json where
  Marshal : Option Customer → Except Error String
  MarshalList : Option (List Customer) → Except Error String

/-- What a handler leaves behind: the response, the service (or its state),
and the service calls it made, in order. -/
structure Outcome (κ τ : Type) where
  writer : ResponseWriter
  svc : τ
  calls : List κ

/-! ## `cmd/server/app/server.go` -/

namespace ServerApp

/-- A call of a method of `*customers.Service`, with its arguments. -/
inductive Call where
  | ByID (id : Int)
  | All
  | AllActive
  | Save (id : Int) (name phone : String)
  | RemoveByID (id : Int)
  | BlockByID (id : Int)
  | UnBlockByID (id : Int)
  deriving DecidableEq, Repr

/-- Go `Server` struct; the handlers do not use `mux`. -/
structure Server (σ : Type) where
  customersSvc : Service σ

/-- The tail shared by the handlers that return one customer: the two error
branches (both answering `StatusNotFound`), `json.Marshal`, then the
content type and the body. -/
def respondItem {σ : Type} (json : Json) (writer : ResponseWriter)
    (r : (Option Customer × Option Error) × Service σ) (calls : List Call) :
    Outcome Call (Server σ) :=
  let item := r.1.1
  let err := r.1.2
  if errorsIs err ErrNotFound then
    ⟨httpError writer (StatusText StatusNotFound) StatusNotFound, ⟨r.2⟩, calls⟩
  else if err ≠ none then
    ⟨httpError writer (StatusText StatusNotFound) StatusNotFound, ⟨r.2⟩, calls⟩
  else
    match json.Marshal item with
    | Except.error _ => ⟨writer, ⟨r.2⟩, calls⟩
    | Except.ok data =>
      ⟨(writer.HeaderSet "Content-Type" "application/json").Write data, ⟨r.2⟩, calls⟩

/-- The same tail for the handlers that return a list of customers. -/
def respondItems {σ : Type} (json : Json) (writer : ResponseWriter)
    (r : (Option (List Customer) × Option Error) × Service σ) (calls : List Call) :
    Outcome Call (Server σ) :=
  let items := r.1.1
  let err := r.1.2
  if errorsIs err ErrNotFound then
    ⟨httpError writer (StatusText StatusNotFound) StatusNotFound, ⟨r.2⟩, calls⟩
  else if err ≠ none then
    ⟨httpError writer (StatusText StatusNotFound) StatusNotFound, ⟨r.2⟩, calls⟩
  else
    match json.MarshalList items with
    | Except.error _ => ⟨writer, ⟨r.2⟩, calls⟩
    | Except.ok data =>
      ⟨(writer.HeaderSet "Content-Type" "application/json").Write data, ⟨r.2⟩, calls⟩

/-- Go `Server.handleGetCustomerByID`. -/
def Server.handleGetCustomerByID {σ : Type} (s : Server σ) (json : Json)
    (writer : ResponseWriter) (request : Request) : Outcome Call (Server σ) :=
  let idParam := ValuesGet request.query "id"
  let p := ParseInt idParam
  if p.2 ≠ none then ⟨writer, s, []⟩
  else
    let id := p.1
    respondItem json writer (s.customersSvc.ByID request.ctx id) [Call.ByID id]

/-- Go `Server.handleGetCustomerAll`. -/
def Server.handleGetCustomerAll {σ : Type} (s : Server σ) (json : Json)
    (writer : ResponseWriter) (request : Request) : Outcome Call (Server σ) :=
  respondItems json writer (s.customersSvc.All request.ctx) [Call.All]

/-- Go `Server.handleGetCustomerAllActive`. -/
def Server.handleGetCustomerAllActive {σ : Type} (s : Server σ) (json : Json)
    (writer : ResponseWriter) (request : Request) : Outcome Call (Server σ) :=
  respondItems json writer (s.customersSvc.AllActive request.ctx) [Call.AllActive]

/-- Go `Server.handleGetCustomerSave`: id, name and phone are read from the
query string; name and phone are passed on as they are. -/
def Server.handleGetCustomerSave {σ : Type} (s : Server σ) (json : Json)
    (writer : ResponseWriter) (request : Request) : Outcome Call (Server σ) :=
  let idParam := ValuesGet request.query "id"
  let name := ValuesGet request.query "name"
  let phone := ValuesGet request.query "phone"
  let p := ParseInt idParam
  if p.2 ≠ none then ⟨writer, s, []⟩
  else
    let id := p.1
    respondItem json writer (s.customersSvc.Save request.ctx id name phone) [Call.Save id name phone]

/-- Go `Server.handleGetCustomerRemoveByID`. -/
def Server.handleGetCustomerRemoveByID {σ : Type} (s : Server σ) (json : Json)
    (writer : ResponseWriter) (request : Request) : Outcome Call (Server σ) :=
  let idParam := ValuesGet request.query "id"
  let p := ParseInt idParam
  if p.2 ≠ none then ⟨writer, s, []⟩
  else
    let id := p.1
    respondItem json writer (s.customersSvc.RemoveByID request.ctx id) [Call.RemoveByID id]

/-- Go `Server.handleGetCustomerBlockByID`. -/
def Server.handleGetCustomerBlockByID {σ : Type} (s : Server σ) (json : Json)
    (writer : ResponseWriter) (request : Request) : Outcome Call (Server σ) :=
  let idParam := ValuesGet request.query "id"
  let p := ParseInt idParam
  if p.2 ≠ none then ⟨writer, s, []⟩
  else
    let id := p.1
    respondItem json writer (s.customersSvc.BlockByID request.ctx id) [Call.BlockByID id]

/-- Go `Server.handleGetCustomerUnBlockByID`. -/
def Server.handleGetCustomerUnBlockByID {σ : Type} (s : Server σ) (json : Json)
    (writer : ResponseWriter) (request : Request) : Outcome Call (Server σ) :=
  let idParam := ValuesGet request.query "id"
  let p := ParseInt idParam
  if p.2 ≠ none then ⟨writer, s, []⟩
  else
    let id := p.1
    respondItem json writer (s.customersSvc.UnBlockByID request.ctx id) [Call.UnBlockByID id]

end ServerApp

/-! ## `cmd/app/server.go` -/

namespace App

/-- A call of a method of `*customers.Service`, with its arguments. -/
inductive Call where
  | ByID (id : Int)
  | All
  | AllActive
  | ChangeActive (id : Int) (active : Bool)
  | Delete (id : Int)
  | Save (item : Customer)
  deriving DecidableEq, Repr

/-- The methods of `*customers.Service` this adapter calls, over a service
state `τ`.  `ChangeActive`, `Delete` and the one-argument `Save` are not in
`pkg/customers/service.go`, so the whole service is a parameter here. -/
structure CustomersSvc (τ : Type) where
  ByID : τ → Context → Int → (Option Customer × Option Error) × τ
  All : τ → Context → (Option (List Customer) × Option Error) × τ
  AllActive : τ → Context → (Option (List Customer) × Option Error) × τ
  ChangeActive : τ → Context → Int → Bool → (Option Customer × Option Error) × τ
  Delete : τ → Context → Int → (Option Customer × Option Error) × τ
  Save : τ → Context → Customer → (Option Customer × Option Error) × τ

/-- Go `Server` struct; the handlers do not use `mux`. -/
structure Server (τ : Type) where
  customersSvc : CustomersSvc τ

/-- Go `errorWriter`; the error itself is only logged. -/
def errorWriter (w : ResponseWriter) (httpSts : Nat) : ResponseWriter :=
  httpError w (StatusText httpSts) httpSts

/-- Go `respondJSON`, given the result of `json.Marshal(iData)`. -/
def respondJSON (w : ResponseWriter) (marshalled : Except Error String) : ResponseWriter :=
  match marshalled with
  | Except.error _ => errorWriter w StatusInternalServerError
  | Except.ok data => (w.HeaderSet "Content-Type" "application/json").Write data

/-- Go `Server.handleGetAllCustomers`. -/
def Server.handleGetAllCustomers {τ : Type} (s : Server τ) (json : Json) (st : τ)
    (w : ResponseWriter) (r : Request) : Outcome Call τ :=
  let res := s.customersSvc.All st r.ctx
  let items := res.1.1
  let err := res.1.2
  if err ≠ none then ⟨errorWriter w StatusInternalServerError, res.2, [Call.All]⟩
  else ⟨respondJSON w (json.MarshalList items), res.2, [Call.All]⟩

/-- Go `Server.handleGetAllActiveCustomers`. -/
def Server.handleGetAllActiveCustomers {τ : Type} (s : Server τ) (json : Json) (st : τ)
    (w : ResponseWriter) (r : Request) : Outcome Call τ :=
  let res := s.customersSvc.AllActive st r.ctx
  let items := res.1.1
  let err := res.1.2
  if err ≠ none then ⟨errorWriter w StatusInternalServerError, res.2, [Call.AllActive]⟩
  else ⟨respondJSON w (json.MarshalList items), res.2, [Call.AllActive]⟩

/-- Go `Server.handleGetCustomerByID`. -/
def Server.handleGetCustomerByID {τ : Type} (s : Server τ) (json : Json) (st : τ)
    (w : ResponseWriter) (r : Request) : Outcome Call τ :=
  let idP := ValuesGet r.query "id"
  let p := ParseInt idP
  if p.2 ≠ none then ⟨errorWriter w StatusBadRequest, st, []⟩
  else
    let id := p.1
    let res := s.customersSvc.ByID st r.ctx id
    let item := res.1.1
    let err := res.1.2
    if errorsIs err ErrNotFound then ⟨errorWriter w StatusNotFound, res.2, [Call.ByID id]⟩
    else if err ≠ none then
      ⟨errorWriter w StatusInternalServerError, res.2, [Call.ByID id]⟩
    else ⟨respondJSON w (json.Marshal item), res.2, [Call.ByID id]⟩

/-- Go `Server.handleBlockByID`. -/
def Server.handleBlockByID {τ : Type} (s : Server τ) (json : Json) (st : τ)
    (w : ResponseWriter) (r : Request) : Outcome Call τ :=
  let idP := ValuesGet r.query "id"
  let p := ParseInt idP
  if p.2 ≠ none then ⟨errorWriter w StatusBadRequest, st, []⟩
  else
    let id := p.1
    let res := s.customersSvc.ChangeActive st r.ctx id false
    let item := res.1.1
    let err := res.1.2
    if errorsIs err ErrNotFound then
      ⟨errorWriter w StatusNotFound, res.2, [Call.ChangeActive id false]⟩
    else if err ≠ none then
      ⟨errorWriter w StatusInternalServerError, res.2, [Call.ChangeActive id false]⟩
    else ⟨respondJSON w (json.Marshal item), res.2, [Call.ChangeActive id false]⟩

/-- Go `Server.handleUnBlockByID`. -/
def Server.handleUnBlockByID {τ : Type} (s : Server τ) (json : Json) (st : τ)
    (w : ResponseWriter) (r : Request) : Outcome Call τ :=
  let idP := ValuesGet r.query "id"
  let p := ParseInt idP
  if p.2 ≠ none then ⟨errorWriter w StatusBadRequest, st, []⟩
  else
    let id := p.1
    let res := s.customersSvc.ChangeActive st r.ctx id true
    let item := res.1.1
    let err := res.1.2
    if errorsIs err ErrNotFound then
      ⟨errorWriter w StatusNotFound, res.2, [Call.ChangeActive id true]⟩
    else if err ≠ none then
      ⟨errorWriter w StatusInternalServerError, res.2, [Call.ChangeActive id true]⟩
    else ⟨respondJSON w (json.Marshal item), res.2, [Call.ChangeActive id true]⟩

/-- Go `Server.handleDelete`. -/
def Server.handleDelete {τ : Type} (s : Server τ) (json : Json) (st : τ)
    (w : ResponseWriter) (r : Request) : Outcome Call τ :=
  let idP := ValuesGet r.query "id"
  let p := ParseInt idP
  if p.2 ≠ none then ⟨errorWriter w StatusBadRequest, st, []⟩
  else
    let id := p.1
    let res := s.customersSvc.Delete st r.ctx id
    let item := res.1.1
    let err := res.1.2
    if errorsIs err ErrNotFound then ⟨errorWriter w StatusNotFound, res.2, [Call.Delete id]⟩
    else if err ≠ none then
      ⟨errorWriter w StatusInternalServerError, res.2, [Call.Delete id]⟩
    else ⟨respondJSON w (json.Marshal item), res.2, [Call.Delete id]⟩

/-- Go `Server.handleSave`: id, name and phone are form values; a request with
both name and phone empty is refused before the service is called. -/
def Server.handleSave {τ : Type} (s : Server τ) (json : Json) (st : τ)
    (w : ResponseWriter) (r : Request) : Outcome Call τ :=
  let idP := r.FormValue "id"
  let name := r.FormValue "name"
  let phone := r.FormValue "phone"
  let p := ParseInt idP
  if p.2 ≠ none then ⟨errorWriter w StatusBadRequest, st, []⟩
  else
    let id := p.1
    if name = "" ∧ phone = "" then ⟨errorWriter w StatusBadRequest, st, []⟩
    else
      let item : Customer :=
        { ID := id, Name := name, Phone := phone, Active := false, Created := 0 }
      let res := s.customersSvc.Save st r.ctx item
      let customer := res.1.1
      let err := res.1.2
      if err ≠ none then ⟨errorWriter w StatusInternalServerError, res.2, [Call.Save item]⟩
      else ⟨respondJSON w (json.Marshal customer), res.2, [Call.Save item]⟩

end App

/-! ## Concrete collaborators used to evaluate the code -/

/-- An encoder that always succeeds, with a fixed text per kind of value. -/
def okJson : Json :=
  { Marshal := fun _ => Except.ok "item", MarshalList := fun _ => Except.ok "items" }

/-- A service for the `cmd/app` adapter whose every method fails with `e`. -/
def App.failingSvc (e : Error) : App.CustomersSvc Unit :=
  { ByID := fun u _ _ => ((none, some e), u),
    All := fun u _ => ((none, some e), u),
    AllActive := fun u _ => ((none, some e), u),
    ChangeActive := fun u _ _ _ => ((none, some e), u),
    Delete := fun u _ _ => ((none, some e), u),
    Save := fun u _ _ => ((none, some e), u) }

/-- A `cmd/server/app` server whose store answers every statement with a
driver error. -/
def ServerApp.brokenStore : ServerApp.Server Unit :=
  ⟨⟨constDB (Reply.fail (driver "canceling statement due to statement timeout"))⟩⟩

/-- A `cmd/server/app` server over the two-row table. -/
def ServerApp.sampleServer : ServerApp.Server Table :=
  ⟨Table.service 0 sampleTable []⟩

/-- A context that has been cancelled. -/
def cancelledContext : Context :=
  { Err := some Canceled }

/-- A service over a reachable store whose driver reports every statement it
is sent as hitting a bad connection. -/
def badConnService : Service Unit :=
  ⟨constDB (Reply.fail ErrBadConn)⟩

/-- The request `?id=abc`. -/
def requestIdAbc : Request :=
  { query := [("id", "abc")], postForm := [], ctx := Background }

/-- The request `?id=1`. -/
def requestIdOne : Request :=
  { query := [("id", "1")], postForm := [], ctx := Background }

/-- The request `?id=0`, with neither name nor phone. -/
def requestIdZero : Request :=
  { query := [("id", "0")], postForm := [], ctx := Background }

/-! ## Facts about the store client -/

/-- The background context is the only context that is not done. -/
theorem Context.eq_Background (ctx : Context) (h : ctx.Err = none) : ctx = Background := by
  cases ctx
  simp only [Background, Context.mk.injEq]
  exact h


/-- Under a context that is not done, on a store that gives a connection, an
attempt sends the statement once. -/
theorem DB.attempt_sent {σ : Type} (db : DB σ) (ctx : Context) (q : Stmt)
    (hctx : ctx.Err = none) (hconn : db.connect db.state = none) :
    db.attempt ctx q =
      ((db.exec q db.state).1,
        { db with state := (db.exec q db.state).2, trace := db.trace ++ [q] }) := by
  simp [DB.attempt, hctx, hconn]

/-- Under a context that is not done, on a store that gives a connection and
does not answer with `driver.ErrBadConn`, `QueryContext` sends the statement
exactly once. -/
theorem DB.run_sent_once {σ : Type} (db : DB σ) (ctx : Context) (q : Stmt)
    (hctx : ctx.Err = none) (hconn : db.connect db.state = none)
    (hgood : (db.exec q db.state).1.isBadConn = false) :
    db.run ctx q =
      ((db.exec q db.state).1,
        { db with state := (db.exec q db.state).2, trace := db.trace ++ [q] }) := by
  simp [DB.run, maxBadConnRetries, DB.retry, DB.attempt_sent db ctx q hctx hconn, hgood]

/-- The table never answers with `driver.ErrBadConn`. -/
theorem Table.exec_not_badConn (now : Time) (q : Stmt) (t : Table) :
    (Table.exec now q t).1.isBadConn = false := by
  cases q <;> simp only [Table.exec] <;> (try split_ifs) <;>
    simp [Reply.isBadConn, errorsIs, isInChain]

/-- On the table store, under the background context, `QueryContext` sends the
statement exactly once and the table answers it. -/
theorem Table.run_eq (now : Time) (t : Table) (tr : List Stmt) (q : Stmt) :
    (Table.service now t tr).db.run Background q =
      ((Table.exec now q t).1,
        (Table.service now (Table.exec now q t).2 (tr ++ [q])).db) := by
  rw [DB.run_sent_once (Table.service now t tr).db Background q rfl rfl
    (Table.exec_not_badConn now q t)]
  rfl

/-- On a stateless store with a fixed reply that is not `driver.ErrBadConn`,
under the background context, `QueryContext` sends the statement exactly once. -/
theorem constDB_run_eq (r : Reply) (q : Stmt) (h : r.isBadConn = false) :
    (constDB r).run Background q = (r, { constDB r with trace := [q] }) := by
  rw [DB.run_sent_once (constDB r) Background q rfl rfl h]
  rfl

/-! ## Facts about the store model -/

/-- In a list without repeated ids, selecting on the id of a member yields
exactly that member. -/
theorem filter_id_eq_singleton (rows : List Customer) (c : Customer)
    (hk : (rows.map (fun r => r.ID)).Nodup) (hc : c ∈ rows) :
    rows.filter (fun r => r.ID = c.ID) = [c] := by
  induction rows with
  | nil => simp at hc
  | cons a rest ih =>
    simp only [List.map_cons, List.nodup_cons, List.mem_map, not_exists, not_and] at hk
    rcases List.mem_cons.mp hc with h | h
    · subst h
      have hrest : rest.filter (fun r => r.ID = c.ID) = [] := by
        apply List.filter_eq_nil_iff.mpr
        intro r hr
        have := hk.1 r hr
        simpa using this
      simp [List.filter_cons, hrest]
    · have hne : a.ID ≠ c.ID := fun h2 => hk.1 c h (h2.symm)
      simp [List.filter_cons, hne, ih hk.2 h]

/-- Selecting on an id that no row carries yields nothing. -/
theorem filter_id_eq_nil (rows : List Customer) (id : Int)
    (h : ∀ c ∈ rows, c.ID ≠ id) :
    rows.filter (fun r => r.ID = id) = [] := by
  apply List.filter_eq_nil_iff.mpr
  intro r hr
  simpa using h r hr

/-- Selecting on an id commutes with a row update that keeps ids. -/
theorem filter_id_map (rows : List Customer) (id : Int) (f : Customer → Customer)
    (hf : ∀ r, (f r).ID = r.ID) :
    (rows.map f).filter (fun r => r.ID = id) = (rows.filter (fun r => r.ID = id)).map f := by
  induction rows with
  | nil => rfl
  | cons a rest ih =>
    by_cases h : a.ID = id
    · simp [List.filter_cons, hf, h, ih]
    · simp [List.filter_cons, hf, h, ih]

/-- Selecting on the id of a member yields a non-empty result whose rows all
carry that id. -/
theorem filter_id_eq_cons (rows : List Customer) (c : Customer) (hc : c ∈ rows) :
    ∃ c0 rest, c0.ID = c.ID ∧ c0 ∈ rows ∧ rows.filter (fun r => r.ID = c.ID) = c0 :: rest := by
  have hmem : c ∈ rows.filter (fun r => r.ID = c.ID) := by
    simp [List.mem_filter, hc]
  cases hL : rows.filter (fun r => r.ID = c.ID) with
  | nil => rw [hL] at hmem; simp at hmem
  | cons c0 rest =>
    have h0 : c0 ∈ rows.filter (fun r => r.ID = c.ID) := by rw [hL]; simp
    have h1 := List.mem_filter.mp h0
    exact ⟨c0, rest, by simpa using h1.2, h1.1, rfl⟩

/-- Setting the active flag of the rows with a given id twice is the same as
setting it once. -/
theorem map_setActive_idem (rows : List Customer) (id : Int) (b : Bool) :
    (rows.map (fun r => if r.ID = id then r.withActive b else r)).map
        (fun r => if r.ID = id then r.withActive b else r) =
      rows.map (fun r => if r.ID = id then r.withActive b else r) := by
  rw [List.map_map]
  apply List.map_congr_left
  intro r _
  by_cases h : r.ID = id <;> simp [h, Customer.withActive]

/-- `ByID` on a keyed table, for the id of a stored row. -/
theorem ByID_of_mem (now : Time) (t : Table) (tr : List Stmt) (c : Customer)
    (hk : t.Keyed) (hc : c ∈ t.rows) :
    (Table.service now t tr).ByID Background c.ID =
      ((some c, none), Table.service now t (tr ++ [Stmt.selectByID c.ID])) := by
  have hf := filter_id_eq_singleton t.rows c hk hc
  simp only [Service.ByID, DB.QueryRowScan, Table.run_eq]
  simp [Table.service, Table.exec, hf, Reply.Scan]

/-- `ByID` on a table, for an id no stored row carries. -/
theorem ByID_of_not_mem (now : Time) (t : Table) (tr : List Stmt) (id : Int)
    (h : ∀ c ∈ t.rows, c.ID ≠ id) :
    (Table.service now t tr).ByID Background id =
      ((none, some ErrNotFound), Table.service now t (tr ++ [Stmt.selectByID id])) := by
  have hf := filter_id_eq_nil t.rows id h
  simp only [Service.ByID, DB.QueryRowScan, Table.run_eq]
  simp [Table.service, Table.exec, hf, Reply.Scan]

/-- Running the set-active statement for the id of a stored row returns a row
with that id and the requested flag, and running it again on the resulting
table returns the same row and leaves that table as it is. -/
theorem setActive_twice (now : Time) (t : Table) (tr tr2 : List Stmt) (b : Bool)
    (c : Customer) (hc : c ∈ t.rows) :
    ∃ c1 : Customer, c1.ID = c.ID ∧ c1.Active = b ∧
      (Table.service now t tr).db.QueryRowScan Background (Stmt.setActive b c.ID) Customer.zero =
        ((c1, none),
          (Table.service now (t.afterSetActive b c.ID) (tr ++ [Stmt.setActive b c.ID])).db) ∧
      (Table.service now (t.afterSetActive b c.ID) tr2).db.QueryRowScan Background
          (Stmt.setActive b c.ID) Customer.zero =
        ((c1, none),
          (Table.service now (t.afterSetActive b c.ID) (tr2 ++ [Stmt.setActive b c.ID])).db) := by
  obtain ⟨c0, rest, h0, _, hL⟩ := filter_id_eq_cons t.rows c hc
  have hpres : ∀ r : Customer,
      ((fun r : Customer => if r.ID = c.ID then r.withActive b else r) r).ID = r.ID := by
    intro r; by_cases h : r.ID = c.ID <;> simp [h, Customer.withActive]
  have hf := filter_id_map t.rows c.ID
    (fun r => if r.ID = c.ID then r.withActive b else r) hpres
  rw [hL] at hf
  have hidem := map_setActive_idem t.rows c.ID b
  refine ⟨c0.withActive b, by simp [Customer.withActive, h0], by simp [Customer.withActive],
    ?_, ?_⟩
  · simp only [DB.QueryRowScan, Table.run_eq]
    simp [Table.service, Table.exec, Table.afterSetActive, hf, h0, Reply.Scan]
  · simp only [DB.QueryRowScan, Table.run_eq]
    simp only [Table.service, Table.exec, Table.afterSetActive, hidem, hf]
    simp [h0, Reply.Scan, Customer.withActive]

/-! ## Facts about `ParseInt` -/

/-- A value `ParseInt` returns without error fits in 64 bits. -/
theorem ParseInt_range (s : String) (h : (ParseInt s).2 = none) :
    -(2 ^ 63 : Int) ≤ (ParseInt s).1 ∧ (ParseInt s).1 < 2 ^ 63 := by
  unfold ParseInt at h ⊢
  split at h
  · simp at h
  · rename_i c cs _
    simp only at h ⊢
    split_ifs at h ⊢
    all_goals
      simp_all only [not_and, not_le, not_lt, ge_iff_le, gt_iff_lt, decide_eq_true_eq,
        decide_eq_false_iff_not, not_true_eq_false, not_false_eq_true, forall_const,
        IsEmpty.forall_iff]
      constructor <;> omega

/-- An absent id parameter reads as the empty string, which does not parse. -/
theorem absent_id_not_parsed (q : List (String × String))
    (h : ∀ p ∈ q, p.1 ≠ "id") : (ParseInt (ValuesGet q "id")).2 ≠ none := by
  have hf : q.find? (fun p => p.1 = "id") = none := by
    rw [List.find?_eq_none]
    intro p hp
    simpa using h p hp
  simp only [ValuesGet, hf]
  decide

/-! ## Claims about the data-access service -/

/-- C1: `Service.ByID` on a table keyed by id returns exactly the stored row
(all five fields) and no error when a row with that id exists, executing one
SELECT and leaving the table as it was; when no row has the id it returns no
customer and `ErrNotFound`; on any store, a scan reporting `sql.ErrNoRows`
gives no customer and `ErrNotFound`, and a scan reporting any other error
(a context that is done included) gives no customer and `ErrInternal`.  The
table is queried under the background context, the context that is not done. -/
theorem ByID_contract :
    (∀ (now : Time) (t : Table) (tr : List Stmt) (c : Customer),
        t.Keyed → c ∈ t.rows →
        (Table.service now t tr).ByID Background c.ID =
          ((some c, none), Table.service now t (tr ++ [Stmt.selectByID c.ID]))) ∧
    (∀ (now : Time) (t : Table) (tr : List Stmt) (id : Int),
        (∀ c ∈ t.rows, c.ID ≠ id) →
        (Table.service now t tr).ByID Background id =
          ((none, some ErrNotFound), Table.service now t (tr ++ [Stmt.selectByID id]))) ∧
    (∀ (σ : Type) (s : Service σ) (ctx : Context) (id : Int),
        (s.db.QueryRowScan ctx (Stmt.selectByID id) Customer.zero).1.2 = some ErrNoRows →
        (s.ByID ctx id).1 = (none, some ErrNotFound)) ∧
    (∀ (σ : Type) (s : Service σ) (ctx : Context) (id : Int) (e : Error), e ≠ ErrNoRows →
        (s.db.QueryRowScan ctx (Stmt.selectByID id) Customer.zero).1.2 = some e →
        (s.ByID ctx id).1 = (none, some ErrInternal)) := by
  refine ⟨?_, ?_, ?_, ?_⟩
  · intro now t tr c hk hc
    exact ByID_of_mem now t tr c hk hc
  · intro now t tr id h
    exact ByID_of_not_mem now t tr id h
  · intro σ s ctx id h
    simp [Service.ByID, h]
  · intro σ s ctx id e he h
    simp [Service.ByID, h, he]

/-- C1 at a concrete store: `ByID 2` on the two-row table returns Bob's row. -/
theorem ByID_contract_witness :
    (Table.service 0 sampleTable []).ByID Background 2 =
      ((some { ID := 2, Name := "Bob", Phone := "+2000", Active := false, Created := 20 }, none),
        Table.service 0 sampleTable [Stmt.selectByID 2]) :=
  ByID_contract.1 0 sampleTable []
    { ID := 2, Name := "Bob", Phone := "+2000", Active := false, Created := 20 }
    (by decide) (by simp [sampleTable])

/-- C2: `Service.Save` with id 0 and a phone that a stored row already holds:
the insert takes the conflict branch and yields no row, the table is left as
it was, and `Save` returns no customer and `ErrInternal` (not the row that
holds the phone).  The context is the background context, which is not done. -/
theorem Save_insert_conflict (now : Time) (t : Table) (tr : List Stmt)
    (name phone : String) (c : Customer) (hc : c ∈ t.rows) (hp : c.Phone = phone) :
    (Table.service now t tr).Save Background 0 name phone =
      ((none, some ErrInternal),
        Table.service now t (tr ++ [Stmt.insertOnConflictDoNothing name phone])) := by
  have hany : t.rows.any (fun r => r.Phone = phone) = true := by
    simp only [List.any_eq_true, decide_eq_true_eq]
    exact ⟨c, hc, hp⟩
  simp only [Service.Save, DB.QueryRowScan, Table.run_eq]
  simp [Table.service, Table.exec, hany, Reply.Scan]

/-- C2 at a concrete store: saving "Alice" with the phone "+1000" that row 1
already holds fails with `ErrInternal`. -/
theorem Save_insert_conflict_witness :
    (Table.service 0 sampleTable []).Save Background 0 "Alice" "+1000" =
      ((none, some ErrInternal),
        Table.service 0 sampleTable [Stmt.insertOnConflictDoNothing "Alice" "+1000"]) :=
  Save_insert_conflict 0 sampleTable [] "Alice" "+1000"
    { ID := 1, Name := "Alice", Phone := "+1000", Active := true, Created := 10 }
    (by simp [sampleTable]) rfl

/-- C3: `Service.Save` with a nonzero id that no stored row carries fails with
`ErrNotFound`; the only statement executed is the SELECT of `ByID` (no
UPDATE), and the table is left as it was.  The context is the background
context, which is not done. -/
theorem Save_missing_id (now : Time) (t : Table) (tr : List Stmt)
    (id : Int) (name phone : String) (hid : id ≠ 0) (h : ∀ c ∈ t.rows, c.ID ≠ id) :
    (Table.service now t tr).Save Background id name phone =
      ((none, some ErrNotFound), Table.service now t (tr ++ [Stmt.selectByID id])) := by
  have hb := ByID_of_not_mem now t tr id h
  simp [Service.Save, hid, hb]

/-- C3 at a concrete store: saving under id 7, which the two-row table does
not hold. -/
theorem Save_missing_id_witness :
    (Table.service 0 sampleTable []).Save Background 7 "Carol" "+3000" =
      ((none, some ErrNotFound), Table.service 0 sampleTable [Stmt.selectByID 7]) :=
  Save_missing_id 0 sampleTable [] 7 "Carol" "+3000" (by decide)
    (by simp [sampleTable])

/-- C9: `Service.Save` with a nonzero id that a row `c` of a keyed table
carries, when no other row holds the new phone (so the UPDATE succeeds):
`Save` returns, without error, `c` with the given name and phone and with its
id, active and created untouched; in the resulting table every row with that
id has become that record and every other row is as before; the statements
executed are the SELECT of `ByID` followed by the UPDATE.  The context is the
background context, which is not done. -/
theorem Save_update_frame (now : Time) (t : Table) (tr : List Stmt)
    (name phone : String) (c : Customer)
    (hk : t.Keyed) (hc : c ∈ t.rows) (hid : c.ID ≠ 0)
    (hfree : ∀ r ∈ t.rows, r.ID ≠ c.ID → r.Phone ≠ phone) :
    (Table.service now t tr).Save Background c.ID name phone =
      ((some { ID := c.ID, Name := name, Phone := phone,
               Active := c.Active, Created := c.Created }, none),
        Table.service now
          { rows := t.rows.map (fun r =>
              if r.ID = c.ID then
                { ID := r.ID, Name := name, Phone := phone,
                  Active := r.Active, Created := r.Created }
              else r),
            nextID := t.nextID }
          (tr ++ [Stmt.selectByID c.ID, Stmt.updateNamePhone name phone c.ID])) := by
  have hb := ByID_of_mem now t tr c hk hc
  have hany : t.rows.any (fun r => r.ID ≠ c.ID ∧ r.Phone = phone) = false := by
    rw [List.any_eq_false]
    intro r hr
    simp only [decide_eq_true_eq, not_and]
    exact hfree r hr
  have hf := filter_id_map t.rows c.ID
    (fun r => if r.ID = c.ID then r.withNamePhone name phone else r)
    (by intro r; by_cases h : r.ID = c.ID <;> simp [h, Customer.withNamePhone])
  rw [filter_id_eq_singleton t.rows c hk hc] at hf
  have hexec : Table.exec now (Stmt.updateNamePhone name phone c.ID) t =
      (Reply.rows [Except.ok (c.withNamePhone name phone)],
        { rows := List.map
            (fun r => if r.ID = c.ID then r.withNamePhone name phone else r) t.rows,
          nextID := t.nextID }) := by
    simp only [Table.exec]
    rw [if_neg (by rw [hany]; simp), hf]
    simp
  simp only [Service.Save, hid, hb, if_false, DB.QueryRowScan, Table.run_eq]
  simp [Table.service, hexec, Reply.Scan, Customer.withNamePhone]

/-- C9 at a concrete store: renaming row 2 of the two-row table. -/
theorem Save_update_frame_witness :
    (Table.service 0 sampleTable []).Save Background 2 "Robert" "+2001" =
      ((some { ID := 2, Name := "Robert", Phone := "+2001", Active := false, Created := 20 },
          none),
        Table.service 0
          { rows := sampleTable.rows.map (fun r =>
              if r.ID = 2 then
                { ID := r.ID, Name := "Robert", Phone := "+2001",
                  Active := r.Active, Created := r.Created }
              else r),
            nextID := sampleTable.nextID }
          [Stmt.selectByID 2, Stmt.updateNamePhone "Robert" "+2001" 2]) :=
  Save_update_frame 0 sampleTable [] "Robert" "+2001"
    { ID := 2, Name := "Bob", Phone := "+2000", Active := false, Created := 20 }
    (by decide) (by simp [sampleTable]) (by decide) (by simp [sampleTable])

/-- C10: `BlockByID` and `UnBlockByID` are idempotent on the table: for an id
that a stored row carries, the first call returns without error a customer
with that id and active = false (resp. true); a second call right after it
returns the same customer without error and leaves the table exactly as the
first call left it.  The context is the background context, which is not
done. -/
theorem Block_UnBlock_idempotent (now : Time) (t : Table) (tr : List Stmt)
    (c : Customer) (hc : c ∈ t.rows) :
    (∃ c1 : Customer, c1.ID = c.ID ∧ c1.Active = false ∧
      ((Table.service now t tr).BlockByID Background c.ID).1 = (some c1, none) ∧
      ((((Table.service now t tr).BlockByID Background c.ID).2).BlockByID Background c.ID).1 = (some c1, none) ∧
      ((((Table.service now t tr).BlockByID Background c.ID).2).BlockByID Background c.ID).2.db.state =
        ((Table.service now t tr).BlockByID Background c.ID).2.db.state) ∧
    (∃ c1 : Customer, c1.ID = c.ID ∧ c1.Active = true ∧
      ((Table.service now t tr).UnBlockByID Background c.ID).1 = (some c1, none) ∧
      ((((Table.service now t tr).UnBlockByID Background c.ID).2).UnBlockByID Background c.ID).1 = (some c1, none) ∧
      ((((Table.service now t tr).UnBlockByID Background c.ID).2).UnBlockByID Background c.ID).2.db.state =
        ((Table.service now t tr).UnBlockByID Background c.ID).2.db.state) := by
  constructor
  · obtain ⟨c1, h1, h2, h3, h4⟩ :=
      setActive_twice now t tr (tr ++ [Stmt.setActive false c.ID]) false c hc
    have e1 : (Table.service now t tr).BlockByID Background c.ID =
        ((some c1, none),
          Table.service now (t.afterSetActive false c.ID) (tr ++ [Stmt.setActive false c.ID])) := by
      simp [Service.BlockByID, h3]
    have e2 : (Table.service now (t.afterSetActive false c.ID)
          (tr ++ [Stmt.setActive false c.ID])).BlockByID Background c.ID =
        ((some c1, none),
          Table.service now (t.afterSetActive false c.ID)
            (tr ++ [Stmt.setActive false c.ID] ++ [Stmt.setActive false c.ID])) := by
      simp [Service.BlockByID, h4]
    refine ⟨c1, h1, h2, ?_, ?_, ?_⟩
    · rw [e1]
    · rw [e1]; simp only [e2]
    · rw [e1]; simp only [e2]; rfl
  · obtain ⟨c1, h1, h2, h3, h4⟩ :=
      setActive_twice now t tr (tr ++ [Stmt.setActive true c.ID]) true c hc
    have e1 : (Table.service now t tr).UnBlockByID Background c.ID =
        ((some c1, none),
          Table.service now (t.afterSetActive true c.ID) (tr ++ [Stmt.setActive true c.ID])) := by
      simp [Service.UnBlockByID, h3]
    have e2 : (Table.service now (t.afterSetActive true c.ID)
          (tr ++ [Stmt.setActive true c.ID])).UnBlockByID Background c.ID =
        ((some c1, none),
          Table.service now (t.afterSetActive true c.ID)
            (tr ++ [Stmt.setActive true c.ID] ++ [Stmt.setActive true c.ID])) := by
      simp [Service.UnBlockByID, h4]
    refine ⟨c1, h1, h2, ?_, ?_, ?_⟩
    · rw [e1]
    · rw [e1]; simp only [e2]
    · rw [e1]; simp only [e2]; rfl

/-- C10 at a concrete store: blocking the active row 1 of the two-row table
twice, and unblocking it twice. -/
theorem Block_UnBlock_idempotent_witness :
    (∃ c1 : Customer, c1.ID = 1 ∧ c1.Active = false ∧
      ((Table.service 0 sampleTable []).BlockByID Background 1).1 = (some c1, none) ∧
      ((((Table.service 0 sampleTable []).BlockByID Background 1).2).BlockByID Background 1).1 = (some c1, none) ∧
      ((((Table.service 0 sampleTable []).BlockByID Background 1).2).BlockByID Background 1).2.db.state =
        ((Table.service 0 sampleTable []).BlockByID Background 1).2.db.state) ∧
    (∃ c1 : Customer, c1.ID = 1 ∧ c1.Active = true ∧
      ((Table.service 0 sampleTable []).UnBlockByID Background 1).1 = (some c1, none) ∧
      ((((Table.service 0 sampleTable []).UnBlockByID Background 1).2).UnBlockByID Background 1).1 = (some c1, none) ∧
      ((((Table.service 0 sampleTable []).UnBlockByID Background 1).2).UnBlockByID Background 1).2.db.state =
        ((Table.service 0 sampleTable []).UnBlockByID Background 1).2.db.state) :=
  Block_UnBlock_idempotent 0 sampleTable []
    { ID := 1, Name := "Alice", Phone := "+1000", Active := true, Created := 10 }
    (by simp [sampleTable])

/-- C4: on every store behaviour and under every context, `ByID`, `Save`,
`RemoveByID`, `BlockByID` and `UnBlockByID` return as error only nil,
`ErrNotFound` or `ErrInternal`; but `All` and `AllActive` hand the error of a
failing row scan to the caller unchanged: on a store whose result set holds
one row that fails to scan with error `e` both return `e` itself, such as a
driver error, which is neither `ErrNotFound` nor `ErrInternal`. -/
theorem All_returns_raw_scan_error :
    (∀ (σ : Type) (s : Service σ) (ctx : Context) (id : Int) (name phone : String),
      (s.ByID ctx id).1.2 ∈ [none, some ErrNotFound, some ErrInternal] ∧
      (s.Save ctx id name phone).1.2 ∈ [none, some ErrNotFound, some ErrInternal] ∧
      (s.RemoveByID ctx id).1.2 ∈ [none, some ErrNotFound, some ErrInternal] ∧
      (s.BlockByID ctx id).1.2 ∈ [none, some ErrNotFound, some ErrInternal] ∧
      (s.UnBlockByID ctx id).1.2 ∈ [none, some ErrNotFound, some ErrInternal]) ∧
    (∀ e : Error,
      (Service.All ⟨constDB (Reply.rows [Except.error e])⟩ Background).1 = (none, some e) ∧
      (Service.AllActive ⟨constDB (Reply.rows [Except.error e])⟩ Background).1 =
        (none, some e)) ∧
    (Service.All ⟨constDB (Reply.rows
        [Except.error (driver "converting NULL to string is unsupported")])⟩ Background).1.2
      ∉ [none, some ErrNotFound, some ErrInternal] := by
  have hall : ∀ e : Error,
      (Service.All ⟨constDB (Reply.rows [Except.error e])⟩ Background).1 = (none, some e) := by
    intro e
    have hr := constDB_run_eq (Reply.rows [Except.error e]) Stmt.selectAll rfl
    simp only [Service.All, DB.QueryContext, hr]
    simp [errorsIs, scanLoop]
  refine ⟨?_, ?_, ?_⟩
  · intro σ s ctx id name phone
    have hb : (s.ByID ctx id).1.2 ∈ [none, some ErrNotFound, some ErrInternal] := by
      simp only [Service.ByID]; split_ifs <;> simp
    refine ⟨hb, ?_, ?_, ?_, ?_⟩
    · simp only [Service.Save]
      split_ifs with h1 h2 h3 h4
      · simp
      · simp
      · exact hb
      · simp
      · simp
    · simp only [Service.RemoveByID]; split_ifs <;> simp
    · simp only [Service.BlockByID]; split_ifs <;> simp
    · simp only [Service.UnBlockByID]; split_ifs <;> simp
  · intro e
    refine ⟨hall e, ?_⟩
    have hr := constDB_run_eq (Reply.rows [Except.error e]) Stmt.selectAllActive rfl
    simp only [Service.AllActive, DB.QueryContext, hr]
    simp [errorsIs, scanLoop]
  · rw [hall]
    simp

/-- C8, as stated, fails, in three ways.  `Save` with the nonzero id 2 on the
two-row table sends two statements, the SELECT of `ByID` and then the UPDATE.
`ByID` under a cancelled context sends no statement at all and returns
`ErrInternal`.  `ByID` on a store whose driver reports a bad connection for
every statement sends the SELECT three times. -/
theorem one_statement_per_call_fails :
    (((Table.service 0 sampleTable []).Save Background 2 "Robert" "+2001").2.db.trace =
        [Stmt.selectByID 2, Stmt.updateNamePhone "Robert" "+2001" 2] ∧
      ((Table.service 0 sampleTable []).Save Background 2 "Robert" "+2001").2.db.trace.length
        ≠ 1) ∧
    (((Table.service 0 sampleTable []).ByID cancelledContext 1).2.db.trace = [] ∧
      ((Table.service 0 sampleTable []).ByID cancelledContext 1).1 =
        (none, some ErrInternal)) ∧
    (badConnService.ByID Background 1).2.db.trace =
      [Stmt.selectByID 1, Stmt.selectByID 1, Stmt.selectByID 1] := by
  refine ⟨⟨?_, ?_⟩, ⟨?_, ?_⟩, ?_⟩ <;> decide

/-- C8, amended: for every store state, under a context that is not done, when
a connection can be had and the driver does not report it bad
(`driver.ErrBadConn`), `ByID`, `All`, `AllActive`, `RemoveByID`, `BlockByID`,
`UnBlockByID` and `Save` with id 0 send exactly one statement to the store per
call, counted on the trace of the store; `Save` with a nonzero id sends the
SELECT of `ByID` and, when `ByID` returned no error, the UPDATE after it (two
statements). -/
theorem statements_per_call (σ : Type) (s : Service σ) (ctx : Context)
    (id : Int) (name phone : String)
    (hctx : ctx.Err = none)
    (hconn : ∀ st : σ, s.db.connect st = none)
    (hgood : ∀ (q : Stmt) (st : σ), (s.db.exec q st).1.isBadConn = false) :
    (s.ByID ctx id).2.db.trace = s.db.trace ++ [Stmt.selectByID id] ∧
    (s.All ctx).2.db.trace = s.db.trace ++ [Stmt.selectAll] ∧
    (s.AllActive ctx).2.db.trace = s.db.trace ++ [Stmt.selectAllActive] ∧
    (s.RemoveByID ctx id).2.db.trace = s.db.trace ++ [Stmt.deleteByID id] ∧
    (s.BlockByID ctx id).2.db.trace = s.db.trace ++ [Stmt.setActive false id] ∧
    (s.UnBlockByID ctx id).2.db.trace = s.db.trace ++ [Stmt.setActive true id] ∧
    (s.Save ctx id name phone).2.db.trace = s.db.trace ++
      (if id = 0 then [Stmt.insertOnConflictDoNothing name phone]
       else if (s.ByID ctx id).1.2 = none then
         [Stmt.selectByID id, Stmt.updateNamePhone name phone id]
       else [Stmt.selectByID id]) := by
  have hrun : ∀ q : Stmt, s.db.run ctx q =
      ((s.db.exec q s.db.state).1,
        { s.db with state := (s.db.exec q s.db.state).2, trace := s.db.trace ++ [q] }) :=
    fun q => DB.run_sent_once s.db ctx q hctx (hconn _) (hgood q _)
  have hrun2 : ∀ (q q2 : Stmt),
      ({ s.db with state := (s.db.exec q s.db.state).2, trace := s.db.trace ++ [q] } :
        DB σ).run ctx q2 =
      ((s.db.exec q2 (s.db.exec q s.db.state).2).1,
        { s.db with state := (s.db.exec q2 (s.db.exec q s.db.state).2).2,
                    trace := s.db.trace ++ [q] ++ [q2] }) :=
    fun q q2 => DB.run_sent_once _ ctx q2 hctx (hconn _) (hgood q2 _)
  have hb : (s.ByID ctx id).2.db.trace = s.db.trace ++ [Stmt.selectByID id] := by
    simp only [Service.ByID, DB.QueryRowScan, hrun]; split_ifs <;> rfl
  have hbdb : (s.ByID ctx id).2.db =
      { s.db with state := (s.db.exec (Stmt.selectByID id) s.db.state).2,
                  trace := s.db.trace ++ [Stmt.selectByID id] } := by
    simp only [Service.ByID, DB.QueryRowScan, hrun]; split_ifs <;> rfl
  have hq : ∀ q : Stmt, (s.db.QueryContext ctx q).2.trace = s.db.trace ++ [q] := by
    intro q
    simp only [DB.QueryContext, hrun]
    split <;> rfl
  refine ⟨hb, ?_, ?_, ?_, ?_, ?_, ?_⟩
  · simp only [Service.All]; split_ifs <;> simp [hq]
  · simp only [Service.AllActive]; split_ifs <;> simp [hq]
  · simp only [Service.RemoveByID, DB.QueryRowScan, hrun]; split_ifs <;> rfl
  · simp only [Service.BlockByID, DB.QueryRowScan, hrun]; split_ifs <;> rfl
  · simp only [Service.UnBlockByID, DB.QueryRowScan, hrun]; split_ifs <;> rfl
  · by_cases h0 : id = 0
    · simp only [Service.Save, h0, if_true, DB.QueryRowScan, hrun]
      split_ifs <;> rfl
    · by_cases he : (s.ByID ctx id).1.2 = none
      · simp only [Service.Save, h0, he, if_false, if_true, ne_eq, not_true_eq_false,
          DB.QueryRowScan, hbdb, hrun2]
        split_ifs <;> simp
      · simp only [Service.Save, h0, he, if_false, if_true, ne_eq, not_false_eq_true]
        exact hb

/-- C8, amended, at a concrete store: the two-row table under the background
context; `Save` with id 0 sends the INSERT only. -/
theorem statements_per_call_witness :
    ((Table.service 0 sampleTable []).ByID Background 2).2.db.trace = [Stmt.selectByID 2] ∧
    ((Table.service 0 sampleTable []).All Background).2.db.trace = [Stmt.selectAll] ∧
    ((Table.service 0 sampleTable []).Save Background 0 "Carol" "+3000").2.db.trace =
      [Stmt.insertOnConflictDoNothing "Carol" "+3000"] := by
  have h := statements_per_call Table (Table.service 0 sampleTable []) Background 0
    "Carol" "+3000" rfl (fun _ => rfl) (fun q st => Table.exec_not_badConn 0 q st)
  have h2 := statements_per_call Table (Table.service 0 sampleTable []) Background 2
    "Carol" "+3000" rfl (fun _ => rfl) (fun q st => Table.exec_not_badConn 0 q st)
  exact ⟨h2.1, h.2.1, h.2.2.2.2.2.2⟩

/-! ## Claims about the HTTP adapters -/

/-- Status and body after `http.Error` on a writer nothing was written to. -/
theorem httpError_status_body (w : ResponseWriter) (text : String) (code : Nat)
    (hw : w.status = none) :
    (httpError w text code).statusCode = code ∧
    (httpError w text code).body = w.body ++ (text ++ "\n") := by
  simp [httpError, ResponseWriter.HeaderSet, ResponseWriter.WriteHeader, ResponseWriter.Write,
    ResponseWriter.statusCode, hw]

/-- C5: for a request whose id does not parse as a base-10 64-bit integer
(an absent id reads as the empty string), the five id-taking handlers of
`cmd/server/app` write nothing at all and return, so the client receives
status 200 and not 400; they make no service call.  The five id-taking
handlers of `cmd/app` answer 400 and make no service call. -/
theorem bad_id_response (σ τ : Type) (s : ServerApp.Server σ) (a : App.Server τ) (st : τ)
    (json : Json) (w : ResponseWriter) (request : Request)
    (hq : (ParseInt (ValuesGet request.query "id")).2 ≠ none)
    (hf : (ParseInt (request.FormValue "id")).2 ≠ none)
    (hw : w.status = none) :
    (s.handleGetCustomerByID json w request = ⟨w, s, []⟩ ∧
     s.handleGetCustomerBlockByID json w request = ⟨w, s, []⟩ ∧
     s.handleGetCustomerUnBlockByID json w request = ⟨w, s, []⟩ ∧
     s.handleGetCustomerRemoveByID json w request = ⟨w, s, []⟩ ∧
     s.handleGetCustomerSave json w request = ⟨w, s, []⟩ ∧
     w.statusCode = 200) ∧
    (a.handleGetCustomerByID json st w request = ⟨App.errorWriter w 400, st, []⟩ ∧
     a.handleBlockByID json st w request = ⟨App.errorWriter w 400, st, []⟩ ∧
     a.handleUnBlockByID json st w request = ⟨App.errorWriter w 400, st, []⟩ ∧
     a.handleDelete json st w request = ⟨App.errorWriter w 400, st, []⟩ ∧
     a.handleSave json st w request = ⟨App.errorWriter w 400, st, []⟩ ∧
     (App.errorWriter w 400).statusCode = 400) := by
  refine ⟨⟨?_, ?_, ?_, ?_, ?_, ?_⟩, ⟨?_, ?_, ?_, ?_, ?_, ?_⟩⟩
  · simp only [ServerApp.Server.handleGetCustomerByID]; rw [if_pos hq]
  · simp only [ServerApp.Server.handleGetCustomerBlockByID]; rw [if_pos hq]
  · simp only [ServerApp.Server.handleGetCustomerUnBlockByID]; rw [if_pos hq]
  · simp only [ServerApp.Server.handleGetCustomerRemoveByID]; rw [if_pos hq]
  · simp only [ServerApp.Server.handleGetCustomerSave]; rw [if_pos hq]
  · simp [ResponseWriter.statusCode, hw, StatusOK]
  · simp only [App.Server.handleGetCustomerByID]; rw [if_pos hq]; rfl
  · simp only [App.Server.handleBlockByID]; rw [if_pos hq]; rfl
  · simp only [App.Server.handleUnBlockByID]; rw [if_pos hq]; rfl
  · simp only [App.Server.handleDelete]; rw [if_pos hq]; rfl
  · simp only [App.Server.handleSave]; rw [if_pos hf]; rfl
  · exact (httpError_status_body w (StatusText 400) 400 hw).1

/-- C5 at the request `?id=abc`: `cmd/server/app` leaves the response
untouched (status 200, empty body), `cmd/app` answers 400; neither calls the
service. -/
theorem bad_id_response_witness :
    (ServerApp.sampleServer.handleGetCustomerByID okJson ResponseWriter.fresh
        requestIdAbc).writer = ResponseWriter.fresh ∧
    (ServerApp.sampleServer.handleGetCustomerByID okJson ResponseWriter.fresh
        requestIdAbc).calls = [] ∧
    ResponseWriter.fresh.statusCode = 200 ∧
    ((App.Server.mk (App.failingSvc ErrInternal)).handleGetCustomerByID okJson ()
        ResponseWriter.fresh requestIdAbc).writer.statusCode = 400 ∧
    ((App.Server.mk (App.failingSvc ErrInternal)).handleGetCustomerByID okJson ()
        ResponseWriter.fresh requestIdAbc).calls = [] := by
  have h := bad_id_response Table Unit ServerApp.sampleServer
    (App.Server.mk (App.failingSvc ErrInternal)) () okJson ResponseWriter.fresh requestIdAbc
    (by decide) (by decide) rfl
  refine ⟨?_, ?_, h.1.2.2.2.2.2, ?_, ?_⟩
  · rw [h.1.1]
  · rw [h.1.1]
  · rw [h.2.1]; exact h.2.2.2.2.2.2
  · rw [h.2.1]

/-- The shared tail of the `cmd/server/app` handlers answers 200 or 404 on a
writer nothing was written to. -/
theorem respondItem_status {σ : Type} (json : Json)
    (r : (Option Customer × Option Error) × Service σ) (calls : List ServerApp.Call) :
    (ServerApp.respondItem json ResponseWriter.fresh r calls).writer.statusCode ∈ [200, 404] := by
  simp only [ServerApp.respondItem]
  split_ifs
  · simp [httpError, ResponseWriter.HeaderSet, ResponseWriter.WriteHeader, ResponseWriter.Write,
      ResponseWriter.statusCode, ResponseWriter.fresh, StatusNotFound]
  · simp [httpError, ResponseWriter.HeaderSet, ResponseWriter.WriteHeader, ResponseWriter.Write,
      ResponseWriter.statusCode, ResponseWriter.fresh, StatusNotFound]
  · split <;>
    simp [ResponseWriter.HeaderSet, ResponseWriter.WriteHeader, ResponseWriter.Write,
      ResponseWriter.statusCode, ResponseWriter.fresh, StatusOK]

/-- The shared tail of the list handlers of `cmd/server/app` answers 200 or
404 on a writer nothing was written to. -/
theorem respondItems_status {σ : Type} (json : Json)
    (r : (Option (List Customer) × Option Error) × Service σ) (calls : List ServerApp.Call) :
    (ServerApp.respondItems json ResponseWriter.fresh r calls).writer.statusCode ∈ [200, 404] := by
  simp only [ServerApp.respondItems]
  split_ifs
  · simp [httpError, ResponseWriter.HeaderSet, ResponseWriter.WriteHeader, ResponseWriter.Write,
      ResponseWriter.statusCode, ResponseWriter.fresh, StatusNotFound]
  · simp [httpError, ResponseWriter.HeaderSet, ResponseWriter.WriteHeader, ResponseWriter.Write,
      ResponseWriter.statusCode, ResponseWriter.fresh, StatusNotFound]
  · split <;>
    simp [ResponseWriter.HeaderSet, ResponseWriter.WriteHeader, ResponseWriter.Write,
      ResponseWriter.statusCode, ResponseWriter.fresh, StatusOK]

/-- C6: the seven handlers of `cmd/server/app` answer every request with
status 200 or 404 and never with 500: when the service returns an error
other than `ErrNotFound` they answer 404 with the body "Not Found", as on a
store that refuses every statement, where `ByID` returns `ErrInternal`.  The
seven handlers of `cmd/app` answer such an error with status 500 and the
body "Internal Server Error". -/
theorem service_error_response :
    (∀ (σ : Type) (s : ServerApp.Server σ) (json : Json) (request : Request),
      (s.handleGetCustomerByID json ResponseWriter.fresh request).writer.statusCode
        ∈ [200, 404] ∧
      (s.handleGetCustomerAll json ResponseWriter.fresh request).writer.statusCode
        ∈ [200, 404] ∧
      (s.handleGetCustomerAllActive json ResponseWriter.fresh request).writer.statusCode
        ∈ [200, 404] ∧
      (s.handleGetCustomerSave json ResponseWriter.fresh request).writer.statusCode
        ∈ [200, 404] ∧
      (s.handleGetCustomerRemoveByID json ResponseWriter.fresh request).writer.statusCode
        ∈ [200, 404] ∧
      (s.handleGetCustomerBlockByID json ResponseWriter.fresh request).writer.statusCode
        ∈ [200, 404] ∧
      (s.handleGetCustomerUnBlockByID json ResponseWriter.fresh request).writer.statusCode
        ∈ [200, 404]) ∧
    ((ServerApp.brokenStore.customersSvc.ByID Background 1).1 = (none, some ErrInternal) ∧
      (ServerApp.brokenStore.handleGetCustomerByID okJson ResponseWriter.fresh
        requestIdOne).writer.statusCode = 404 ∧
      (ServerApp.brokenStore.handleGetCustomerByID okJson ResponseWriter.fresh
        requestIdOne).writer.body = "Not Found\n") ∧
    (∀ (τ : Type) (a : App.Server τ) (st : τ) (json : Json) (w : ResponseWriter)
        (request : Request) (e : Error),
      w.status = none → errorsIs (some e) ErrNotFound = false →
      ((a.customersSvc.All st request.ctx).1.2 = some e →
        (a.handleGetAllCustomers json st w request).writer = App.errorWriter w 500) ∧
      ((a.customersSvc.AllActive st request.ctx).1.2 = some e →
        (a.handleGetAllActiveCustomers json st w request).writer = App.errorWriter w 500) ∧
      (∀ id : Int, ParseInt (ValuesGet request.query "id") = (id, none) →
        ((a.customersSvc.ByID st request.ctx id).1.2 = some e →
          (a.handleGetCustomerByID json st w request).writer = App.errorWriter w 500) ∧
        ((a.customersSvc.ChangeActive st request.ctx id false).1.2 = some e →
          (a.handleBlockByID json st w request).writer = App.errorWriter w 500) ∧
        ((a.customersSvc.ChangeActive st request.ctx id true).1.2 = some e →
          (a.handleUnBlockByID json st w request).writer = App.errorWriter w 500) ∧
        ((a.customersSvc.Delete st request.ctx id).1.2 = some e →
          (a.handleDelete json st w request).writer = App.errorWriter w 500)) ∧
      (∀ id : Int, ParseInt (request.FormValue "id") = (id, none) →
        ¬ (request.FormValue "name" = "" ∧ request.FormValue "phone" = "") →
        (a.customersSvc.Save st request.ctx
          { ID := id, Name := request.FormValue "name", Phone := request.FormValue "phone",
            Active := false, Created := 0 }).1.2 = some e →
        (a.handleSave json st w request).writer = App.errorWriter w 500) ∧
      (App.errorWriter w 500).statusCode = 500 ∧
      (App.errorWriter w 500).body = w.body ++ "Internal Server Error\n") := by
  refine ⟨?_, ⟨?_, ?_, ?_⟩, ?_⟩
  · intro σ s json request
    have h200 : ResponseWriter.fresh.statusCode ∈ [200, 404] := by
      simp [ResponseWriter.statusCode, ResponseWriter.fresh, StatusOK]
    refine ⟨?_, ?_, ?_, ?_, ?_, ?_, ?_⟩
    · simp only [ServerApp.Server.handleGetCustomerByID]
      split_ifs
      · exact h200
      · exact respondItem_status _ _ _
    · exact respondItems_status _ _ _
    · exact respondItems_status _ _ _
    · simp only [ServerApp.Server.handleGetCustomerSave]
      split_ifs
      · exact h200
      · exact respondItem_status _ _ _
    · simp only [ServerApp.Server.handleGetCustomerRemoveByID]
      split_ifs
      · exact h200
      · exact respondItem_status _ _ _
    · simp only [ServerApp.Server.handleGetCustomerBlockByID]
      split_ifs
      · exact h200
      · exact respondItem_status _ _ _
    · simp only [ServerApp.Server.handleGetCustomerUnBlockByID]
      split_ifs
      · exact h200
      · exact respondItem_status _ _ _
  · decide
  · decide
  · decide
  · intro τ a st json w request e hw he
    have hne : (some e : Option Error) ≠ none := by simp
    refine ⟨?_, ?_, ?_, ?_, ?_, ?_⟩
    · intro h
      simp [App.Server.handleGetAllCustomers, h, StatusInternalServerError]
    · intro h
      simp [App.Server.handleGetAllActiveCustomers, h, StatusInternalServerError]
    · intro id hp
      refine ⟨?_, ?_, ?_, ?_⟩
      · intro h
        simp [App.Server.handleGetCustomerByID, hp, h, he, StatusInternalServerError]
      · intro h
        simp [App.Server.handleBlockByID, hp, h, he, StatusInternalServerError]
      · intro h
        simp [App.Server.handleUnBlockByID, hp, h, he, StatusInternalServerError]
      · intro h
        simp [App.Server.handleDelete, hp, h, he, StatusInternalServerError]
    · intro id hp hnp h
      simp only [App.Server.handleSave, hp]
      rw [if_neg (by simp), if_neg hnp, if_pos (by rw [h]; exact hne)]
      rfl
    · exact (httpError_status_body w (StatusText 500) 500 hw).1
    · exact (httpError_status_body w (StatusText 500) 500 hw).2

/-- C6 at a concrete service: with a `cmd/app` service whose every method
fails with `ErrInternal`, the request `?id=1` to the get-by-id handler is
answered 500 with the body "Internal Server Error". -/
theorem service_error_response_witness :
    ((App.Server.mk (App.failingSvc ErrInternal)).handleGetCustomerByID okJson ()
        ResponseWriter.fresh requestIdOne).writer.statusCode = 500 ∧
    ((App.Server.mk (App.failingSvc ErrInternal)).handleGetCustomerByID okJson ()
        ResponseWriter.fresh requestIdOne).writer.body = "Internal Server Error\n" := by
  have h := service_error_response.2.2 Unit (App.Server.mk (App.failingSvc ErrInternal)) ()
    okJson ResponseWriter.fresh requestIdOne ErrInternal rfl (by decide)
  have hw := (h.2.2.1 1 (by decide)).1 rfl
  rw [hw]
  exact ⟨h.2.2.2.2.1, h.2.2.2.2.2⟩

/-- The shared tail of the `cmd/server/app` handlers passes the recorded
calls through. -/
theorem respondItem_calls {σ : Type} (json : Json) (w : ResponseWriter)
    (r : (Option Customer × Option Error) × Service σ) (calls : List ServerApp.Call) :
    (ServerApp.respondItem json w r calls).calls = calls := by
  simp only [ServerApp.respondItem]
  split_ifs
  · rfl
  · rfl
  · split <;> rfl

/-- C7: for a request whose id parses and whose name and phone are both empty,
the save handler of `cmd/server/app` does call `Service.Save`, with the empty
name and phone, and does not answer 400; the save handler of `cmd/app`
answers 400 and does not call the service. -/
theorem save_empty_name_phone :
    (∀ (σ : Type) (s : ServerApp.Server σ) (json : Json) (request : Request) (id : Int),
      ParseInt (ValuesGet request.query "id") = (id, none) →
      ValuesGet request.query "name" = "" → ValuesGet request.query "phone" = "" →
      (s.handleGetCustomerSave json ResponseWriter.fresh request).calls =
        [ServerApp.Call.Save id "" ""] ∧
      (s.handleGetCustomerSave json ResponseWriter.fresh request).writer.statusCode ≠ 400) ∧
    (∀ (τ : Type) (a : App.Server τ) (st : τ) (json : Json) (w : ResponseWriter)
        (request : Request) (id : Int),
      w.status = none →
      ParseInt (request.FormValue "id") = (id, none) →
      request.FormValue "name" = "" → request.FormValue "phone" = "" →
      a.handleSave json st w request = ⟨App.errorWriter w 400, st, []⟩ ∧
      (App.errorWriter w 400).statusCode = 400) := by
  constructor
  · intro σ s json request id hp hn hph
    have hs : s.handleGetCustomerSave json ResponseWriter.fresh request =
        ServerApp.respondItem json ResponseWriter.fresh (s.customersSvc.Save request.ctx id "" "")
          [ServerApp.Call.Save id "" ""] := by
      simp [ServerApp.Server.handleGetCustomerSave, hp, hn, hph]
    rw [hs]
    refine ⟨respondItem_calls _ _ _ _, ?_⟩
    have h := respondItem_status json (s.customersSvc.Save request.ctx id "" "")
      [ServerApp.Call.Save id "" ""]
    intro h400
    rw [h400] at h
    simp at h
  · intro τ a st json w request id hw hp hn hph
    refine ⟨?_, (httpError_status_body w (StatusText 400) 400 hw).1⟩
    simp only [App.Server.handleSave, hp, hn, hph]
    rw [if_neg (by simp), if_pos ⟨trivial, trivial⟩]
    rfl

/-- C7 at the request `?id=0` with neither name nor phone, on the two-row
table: `cmd/server/app` calls `Save 0 "" ""`, answers 200, and the table has
gained a row with an empty name and an empty phone. -/
theorem save_empty_name_phone_witness :
    (ServerApp.sampleServer.handleGetCustomerSave okJson ResponseWriter.fresh
        requestIdZero).calls = [ServerApp.Call.Save 0 "" ""] ∧
    (ServerApp.sampleServer.handleGetCustomerSave okJson ResponseWriter.fresh
        requestIdZero).writer.statusCode = 200 ∧
    (ServerApp.sampleServer.handleGetCustomerSave okJson ResponseWriter.fresh
        requestIdZero).svc.customersSvc.db.state.rows =
      sampleTable.rows ++
        [{ ID := 3, Name := "", Phone := "", Active := true, Created := 0 }] := by
  refine ⟨(save_empty_name_phone.1 Table ServerApp.sampleServer okJson requestIdZero 0
    (by decide) (by decide) (by decide)).1, ?_, ?_⟩
  · decide
  · decide

end customers
